import Mathlib

/-!
# Verification of the tock-bot scheduling and booking engine

Shallow embedding of the core logic of the tock-bot browser extension:

* `buildDesiredDatesList` — the date-candidate builder
  (`src/background/index.ts`, `buildDesiredDatesList`);
* `scheduleTimer` / `cancelTimer` / `handleAlarmTrigger` — the timer and
  alarm subsystem (`src/background/index.ts`);
* `detectPlatform` — platform URL detection (`src/utils/platform.ts`);
* `findBookButton` (Tock) and `findMatchingTimeSlot` (OpenTable) — the
  slot time-matching policy of the content-script form fillers;
* `tryMultipleDates` — the Tock multi-date attempt loop.

Calendar dates (`YYYY-MM-DD` strings in the source) are modelled as
integers counting days since the epoch — a `YYYY-MM-DD` string and its
day number determine each other, so string equality is integer
equality.  The scan loop's date arithmetic, however, is NOT plain day
addition: `new Date("YYYY-MM-DD")` parses as UTC midnight,
`setDate(getDate() + offset)` acts on the LOCAL calendar keeping the
local wall-clock time, and `toISOString()` renders back in UTC.  That
round trip depends on the runtime's timezone and, across a DST
transition, two offsets can render the same date string.  It is
modelled by `scanDay` over an explicit `Timezone`.  Wall-clock instants
of the scheduler (`Date` objects / epoch milliseconds) are modelled as
integers counting milliseconds; the date pipeline works in minutes. -/

namespace TockBot

/-- Values of the `dateSelectionMode` preference field
(`src/types/index.ts`). -/
inductive DateSelectionMode where
  | range | specific
deriving Repr, DecidableEq

/-- Preferences supplied by the popup (`TockPreferences`,
`src/types/index.ts`).  Optional JS fields become `Option`; the
`selectedDates` access is always guarded by `|| []` in the code, so it
is a plain list.  `date` is the primary date as a day number; the
`HH:MM` time string is its hour and minute components; `dropTime` an
epoch-millisecond instant.  `maxRetries` is read by `scheduleTimer`
although it is not declared on the TypeScript interface; at runtime it
is `undefined` unless set, hence `Option`.  `alarmFireTime` (timing
instrumentation only) is omitted. -/
structure TockPreferences where
  partySize : Nat
  date : Int
  timeHours : Nat
  timeMinutes : Nat
  fallbackDates : Option (List Int)
  useFirstAvailableAfter : Bool
  dateSelectionMode : Option DateSelectionMode
  maxDaysToScan : Option Nat
  selectedDates : List Int
  autoSearchEnabled : Bool
  dropTime : Option Int
  leadTimeMs : Option Int
  autoRefreshOnNoSlots : Option Bool
  maxRefreshRetries : Option Nat
  maxRetries : Option Int
deriving Repr, DecidableEq

/-- The `if (!desiredDates.includes(date)) desiredDates.push(date)`
idiom used by `buildDesiredDatesList`: append an element unless it is
already present. -/
def pushUnique (acc : List Int) (d : Int) : List Int :=
  if d ∈ acc then acc else acc ++ [d]

/-- Loop offsets of the auto-scan range: `for (let dayOffset = -maxDaysToScan;
dayOffset <= maxDaysToScan; dayOffset++)` visits `-R, …, R` in order. -/
def scanOffsets (R : Nat) : List Int :=
  (List.range (2 * R + 1)).map (fun i : Nat => (i : Int) - (R : Int))

/-- The runtime's timezone, as the UTC offset in minutes in effect at a
given UTC instant (in minutes since the epoch).  A DST-observing zone
is a step function; a fixed-offset zone (UTC itself, or any zone during
a window containing no transition) is a constant function. -/
structure Timezone where
  offsetAt : Int → Int

/-- Local wall-clock minutes of a UTC instant. -/
def utcToLocal (tz : Timezone) (t : Int) : Int :=
  t + tz.offsetAt t

/-- The UTC instant a local wall-clock reading denotes: subtract the
offset in effect there, found by first estimating the instant with the
offset read at the raw reading.  This agrees with the JS engine at
every local reading that is not inside the transition band itself
(none of the instants used below are). -/
def localToUTC (tz : Timezone) (lo : Int) : Int :=
  lo - tz.offsetAt (lo - tz.offsetAt lo)

/-- One scan date of the auto-scan loop (`src/background/index.ts`
lines 37–49): `new Date(preferences.date)` is UTC midnight of the
primary day `D`; `scanDate.setDate(primaryDate.getDate() + dayOffset)`
adds `dayOffset` days to the LOCAL calendar date while keeping the
local wall-clock time (day-of-month overflow normalises into adjacent
months, which is exactly local-date day addition); `toISOString`
renders the resulting instant's UTC date.  Divisions are JS floor
divisions; the Euclidean `/` and `%` on `Int` agree with floor for the
positive divisor 1440. -/
def scanDay (tz : Timezone) (D : Int) (dayOffset : Int) : Int :=
  let t0 := D * 1440
  let lo0 := utcToLocal tz t0
  let localDay := lo0 / 1440
  let localTime := lo0 % 1440
  let lo1 := (localDay + dayOffset) * 1440 + localTime
  localToUTC tz lo1 / 1440

/-- Embedding of `buildDesiredDatesList` (`src/background/index.ts` lines 14–55),
parameterised by the runtime's timezone.  Starts with the primary date;
if calendar-selected dates exist, appends them (skipping duplicates);
otherwise, when auto-scan is enabled, appends `scanDay tz date offset`
for each offset `-R..R` except `0`, skipping duplicates
(`maxDaysToScan ?? 7`). -/
def buildDesiredDatesList (tz : Timezone) (p : TockPreferences) : List Int :=
  let desiredDates : List Int := [p.date]
  if p.selectedDates.length > 0 then
    p.selectedDates.foldl pushUnique desiredDates
  else if p.useFirstAvailableAfter then
    let maxDaysToScan := p.maxDaysToScan.getD 7
    (scanOffsets maxDaysToScan).foldl
      (fun acc dayOffset =>
        if dayOffset = 0 then acc
        else pushUnique acc (scanDay tz p.date dayOffset))
      desiredDates
  else
    desiredDates

/-- A concrete range-scan preference set used to instantiate the
universally quantified theorems: primary date `20000` (a day number),
scan radius `2`, drop time an epoch-millisecond instant. -/
def examplePrefs : TockPreferences :=
  { partySize := 2, date := 20000, timeHours := 19, timeMinutes := 0,
    fallbackDates := none, useFirstAvailableAfter := true,
    dateSelectionMode := some DateSelectionMode.range,
    maxDaysToScan := some 2, selectedDates := [],
    autoSearchEnabled := true,
    dropTime := some 1764622800000, leadTimeMs := some 0,
    autoRefreshOnNoSlots := some true, maxRefreshRetries := some 3,
    maxRetries := none }

/-- A concrete preference set with calendar-selected explicit dates. -/
def examplePrefsSel : TockPreferences :=
  { examplePrefs with selectedDates := [20010, 20000, 20020] }

/-- A fixed-offset runtime timezone (UTC). -/
def utcTz : Timezone := { offsetAt := fun _ => 0 }

/-- Europe/Berlin around the 2026 spring-forward: CET (UTC+1, 60 min)
until the EU transition instant 2026-03-29 01:00 UTC, CEST (UTC+2,
120 min) after.  Day 20541 is 2026-03-29 (a Sunday, the last Sunday of
March 2026); the offsets at every instant in the scan window below
match the IANA zone data. -/
def berlin2026 : Timezone :=
  { offsetAt := fun t => if t < 20541 * 1440 + 60 then 60 else 120 }

/-- Range-scan preferences with primary date 2026-03-27 (day 20539)
and radius 3, whose scan window crosses the Berlin spring-forward. -/
def berlinPrefs : TockPreferences :=
  { examplePrefs with date := 20539, maxDaysToScan := some 3 }

/-! ## Timer / Scheduler (`src/background/index.ts`) -/

/-- Status values of `ActiveTimer.status` (`src/types/index.ts`). -/
inductive TimerStatus where
  | scheduled | running | completed | failed | cancelled
deriving Repr, DecidableEq

/-- The persisted timer record (`ActiveTimer`, `src/types/index.ts`).
`currentAttempt` and `maxRetries` are written by `scheduleTimer`
although the TypeScript interface does not declare them. -/
structure ActiveTimer where
  alarmName : String
  dropTime : Int
  scheduledTime : Int
  currentAttempt : Nat
  maxRetries : Int
  status : TimerStatus
  tabId : Option Nat
deriving Repr, DecidableEq

/-- The background script's persistent state: the stored timer
(`chrome.storage.local`, key `activeTimer`) and the set of armed
chrome alarms (by name). -/
structure SchedState where
  activeTimer : Option ActiveTimer
  alarms : List String
deriving Repr, DecidableEq

/-- Embedding of `cancelTimer` (`src/background/index.ts` lines 430–446): if a timer
is stored, clear its alarm, set its status to `cancelled`, save, then
clear it from storage — the net persisted result is no stored timer and
the alarm removed. -/
def cancelTimer (s : SchedState) : SchedState :=
  match s.activeTimer with
  | none => s
  | some t =>
      { activeTimer := none,
        alarms := s.alarms.filter (fun n => n ≠ t.alarmName) }

/-- The lead time actually used by `scheduleTimer`: the JS expression
`preferences.leadTimeMs || 200`, whose `||` replaces both `undefined`
and the falsy value `0` by `200`. -/
def effectiveLeadTimeMs (p : TockPreferences) : Int :=
  match p.leadTimeMs with
  | none => 200
  | some v => if v = 0 then 200 else v

/-- Embedding of `scheduleTimer` (`src/background/index.ts` lines 363–427).
`now` is `Date.now()` (also used for the alarm-name timestamp).
It first clears any existing timer, then validates the drop time,
computes `scheduledTime = dropTime - leadTimeMs`, arms an alarm, and
persists the new `scheduled` timer.  Thrown errors are returned as
`Except.error` together with the state at the point of the throw.
The trailing eager navigation of the tab to the Tock search URL does
not touch timer or alarm state and is not modelled. -/
def scheduleTimer (p : TockPreferences) (tabId : Nat) (now : Int)
    (s : SchedState) : Except String ActiveTimer × SchedState :=
  let s1 := cancelTimer s
  match p.dropTime with
  | none => (Except.error "Drop time not specified", s1)
  | some dropTime =>
      let scheduledTime := dropTime - effectiveLeadTimeMs p
      if scheduledTime ≤ now then
        (Except.error "Scheduled time is in the past", s1)
      else
        let alarmName := "tock-auto-search-" ++ toString now
        let timer : ActiveTimer :=
          { alarmName := alarmName, dropTime := dropTime,
            scheduledTime := scheduledTime, currentAttempt := 0,
            maxRetries := p.maxRetries.getD 0,
            status := TimerStatus.scheduled, tabId := some tabId }
        (Except.ok timer,
          { activeTimer := some timer, alarms := s1.alarms ++ [alarmName] })

/-- Embedding of `handleAlarmTrigger` (`src/background/index.ts` lines 112–182).
`adapter` abstracts `attemptFormFill` — one reload-and-try attempt
cycle handed the candidate date list; it returns the cycle's success
(the real function catches all its exceptions and returns `false`).
The result pairs the final persisted state with the number of
`attemptFormFill` invocations performed.  The intermediate `running`
save is overwritten by the terminal save and is not kept separately. -/
def handleAlarmTrigger (alarmName : String) (tz : Timezone)
    (p : TockPreferences) (adapter : List Int → Bool) (s : SchedState) :
    SchedState × Nat :=
  match s.activeTimer with
  | none => (s, 0)
  | some t =>
      if t.alarmName ≠ alarmName then (s, 0)
      else
        let running : ActiveTimer := { t with status := TimerStatus.running }
        let desiredDates := buildDesiredDatesList tz p
        match t.tabId with
        | some _ =>
            let success := adapter desiredDates
            let final : ActiveTimer :=
              { running with status :=
                  if success then TimerStatus.completed else TimerStatus.failed }
            ({ s with activeTimer := some final }, 1)
        | none =>
            let final : ActiveTimer := { running with status := TimerStatus.failed }
            ({ s with activeTimer := some final }, 0)

/-- A previously scheduled timer with its alarm armed. -/
def exTimer : ActiveTimer :=
  { alarmName := "tock-auto-search-1764500000000",
    dropTime := 1764622800000, scheduledTime := 1764622799800,
    currentAttempt := 0, maxRetries := 0,
    status := TimerStatus.scheduled, tabId := some 1 }

/-- State holding `exTimer` with its alarm armed. -/
def exState : SchedState :=
  { activeTimer := some exTimer, alarms := [exTimer.alarmName] }

/-- State with no stored timer and no alarms. -/
def emptyState : SchedState := { activeTimer := none, alarms := [] }

/-- Preferences whose drop time is 10 seconds before `now = 1764622800000`. -/
def pastPrefs : TockPreferences :=
  { examplePrefs with dropTime := some 1764622790000 }

/-! ## Platform detection (`src/utils/platform.ts`) and the content
script's multi-date dispatch (`src/content/index.ts`). -/

/-- The `Platform` union type (`src/types/index.ts`). -/
inductive Platform where
  | tock | opentable | resy
deriving Repr, DecidableEq

/-- JS `haystack.includes(needle)`: substring test, on the character
list of the lowercased URL. -/
def jsIncludes (haystack : List Char) (needle : String) : Bool :=
  decide (List.IsInfix needle.toList haystack)

/-- Embedding of `detectPlatform` (`src/utils/platform.ts` lines 6–34): lowercases
the URL (`url.toLowerCase()`, modelled characterwise) and tests it
against the known Tock and OpenTable domains; no branch ever yields
`resy`. -/
def detectPlatform (url : String) : Option Platform :=
  let urlLower := url.toList.map Char.toLower
  if jsIncludes urlLower "exploretock.com" then
    some Platform.tock
  else if jsIncludes urlLower "opentable.com" ||
      jsIncludes urlLower "opentable.co.uk" ||
      jsIncludes urlLower "opentable.ca" ||
      jsIncludes urlLower "opentable.jp" ||
      jsIncludes urlLower "opentable.de" ||
      jsIncludes urlLower "opentable.es" ||
      jsIncludes urlLower "opentable.fr" ||
      jsIncludes urlLower "opentable.it" ||
      jsIncludes urlLower "opentable.nl" ||
      jsIncludes urlLower "opentable.com.au" ||
      jsIncludes urlLower "opentable.com.mx" ||
      jsIncludes urlLower "opentable.ie" ||
      jsIncludes urlLower "opentable.sg" ||
      jsIncludes urlLower "opentable.hk" ||
      jsIncludes urlLower "opentable.ae" ||
      jsIncludes urlLower "opentable.co.th" ||
      jsIncludes urlLower "opentable.com.tw" then
    some Platform.opentable
  else
    none

/-- Which form filler the content script's multi-date branch selects
(`src/content/index.ts` lines 78–117): Tock for `'tock'`, Resy for
`'resy'`, otherwise the `Multi-date mode only supported` error path. -/
inductive MultiDateFiller where
  | tockFiller | resyFiller | unsupported
deriving Repr, DecidableEq

/-- The multi-date dispatch on the detected platform
(`src/content/index.ts` lines 78–117). -/
def chooseMultiDateFiller : Option Platform → MultiDateFiller
  | some Platform.tock => MultiDateFiller.tockFiller
  | some Platform.resy => MultiDateFiller.resyFiller
  | _ => MultiDateFiller.unsupported

/-! ## Multi-date attempt loop (`TockFormFiller.tryMultipleDates`,
`src/content/form-filler.ts`). -/

/-- The prefix of a list up to and including the first element
satisfying `pred` (the whole list when none does). -/
def takeThrough (pred : Int → Bool) : List Int → List Int
  | [] => []
  | d :: rest => if pred d then [d] else d :: takeThrough pred rest

/-- The `for` loop of `tryMultipleDates`: for each date, click its
calendar cell (`click`); on click failure `continue`; otherwise look
for a book button (`book`); on success click it and return `true`
immediately; after the last date return `false`.  The second component
is the trace of dates whose loop iteration ran (the attempted dates),
made explicit so the skipping/ordering behaviour can be stated. -/
def tryDatesLoop (click book : Int → Bool) : List Int → Bool × List Int
  | [] => (false, [])
  | date :: rest =>
      if click date then
        if book date then (true, [date])
        else
          let r := tryDatesLoop click book rest
          (r.1, date :: r.2)
      else
        let r := tryDatesLoop click book rest
        (r.1, date :: r.2)

/-- Embedding of `tryMultipleDates` (`src/content/form-filler.ts` lines 1322–1390):
filters the desired dates to those present in the availability map
parsed from the calendar (`availableDates.includes(d)`), logs/skips the
rest, then runs the attempt loop over the filtered list in input
order. -/
def tryMultipleDates (avail : List Int) (click book : Int → Bool)
    (desired : List Int) : Bool × List Int :=
  let datesToTry := desired.filter (fun d => d ∈ avail)
  tryDatesLoop click book datesToTry

/-- Availability map for the C8 witness. -/
def exAvail : List Int := [20001, 20002]

/-- Click simulation for the C8 witness: the calendar click fails on
date 20001 and succeeds elsewhere. -/
def exClick : Int → Bool := fun d => d != 20001

/-- Book-button simulation for the C8 witness: never found. -/
def exBook : Int → Bool := fun _ => false

/-! ## Slot time matching (Tock `findBookButton` in
`src/content/form-filler.ts`, OpenTable `findMatchingTimeSlot` in
`src/content/opentable-form-filler.ts`). -/

/-- A bookable time-slot button together with the 12-hour clock time
parsed from its label by the regex `(\d{1,2}):(\d{2})\s*(AM|PM)`.
`id` distinguishes distinct DOM buttons carrying equal times.  Both
fillers compare labels through their re-rendered `H:MM AM/PM` text,
which the parsed triple determines injectively, so label comparison is
modelled as comparison of the triples. -/
structure Slot where
  id : Nat
  hours : Nat
  minutes : Nat
  pm : Bool
deriving Repr, DecidableEq

/-- Well-formedness of a 12-hour display time as it appears in real
slot labels: hour `1..12`, minutes `0..59`. -/
def slotWF (s : Slot) : Prop :=
  1 ≤ s.hours ∧ s.hours ≤ 12 ∧ s.minutes < 60

instance (s : Slot) : Decidable (slotWF s) := by
  unfold slotWF; infer_instance

/-- The 12-hour display hour of a 24-hour preferred time:
JS `hours24 % 12 || 12` (`convertTo12HourFormat`). -/
def pref12Hours (h24 : Nat) : Nat :=
  if h24 % 12 = 0 then 12 else h24 % 12

/-- Whether the preferred time renders as PM: JS `hours24 >= 12`. -/
def prefIsPM (h24 : Nat) : Bool :=
  decide (12 ≤ h24)

/-- Exact-label comparison (`item.timeText === preferredTime`, resp.
`slotTime === targetTime`): the slot's parsed triple equals the
preferred time's 12-hour rendering. -/
def matchesPreferred (h24 m : Nat) (s : Slot) : Bool :=
  decide (s.hours = pref12Hours h24 ∧ s.minutes = m ∧ s.pm = prefIsPM h24)

/-- Minutes since midnight of a parsed 12-hour time: the 12→24 hour
conversion both fillers use (`if PM && h < 12 then h += 12 else if
AM && h == 12 then h = 0`), times 60, plus the minutes. -/
def slotTotalMinutes (s : Slot) : Nat :=
  (if s.pm ∧ s.hours < 12 then s.hours + 12
   else if ¬s.pm ∧ s.hours = 12 then 0
   else s.hours) * 60 + s.minutes

/-- The preferred-time minutes the Tock `findBookButton` computes by
re-parsing its own 12-hour rendering of the preference. -/
def prefTotalMinutes (h24 m : Nat) : Nat :=
  slotTotalMinutes { id := 0, hours := pref12Hours h24, minutes := m, pm := prefIsPM h24 }

/-- Distance `Math.abs(preferredTotalMinutes - slotTotalMinutes)`. -/
def slotDist (prefTotal : Nat) (s : Slot) : Nat :=
  ((prefTotal : Int) - (slotTotalMinutes s : Int)).natAbs

/-- The closest-time `for` loop shared by both fillers: the running
best is replaced only on a strictly smaller difference, so the first
encountered minimum survives. -/
def closestLoop (prefTotal : Nat) : Slot → List Slot → Slot
  | best, [] => best
  | best, s :: rest =>
      if slotDist prefTotal s < slotDist prefTotal best then
        closestLoop prefTotal s rest
      else
        closestLoop prefTotal best rest

/-- Tock `TockFormFiller.findBookButton` (`src/content/form-filler.ts`
lines 1687–1841) over the parsed slot buttons in DOM order: `null`
when no buttons parse; otherwise the first exact label match; otherwise
the closest-time loop seeded with the first button and iterating over
the whole list (the seed never replaces itself, the comparison being
strict).  The final visibility check on the chosen button is not
modelled (all buttons are taken as visible). -/
def findBookButton (slots : List Slot) (h24 m : Nat) : Option Slot :=
  match slots.find? (matchesPreferred h24 m) with
  | some s => some s
  | none =>
      match slots with
      | [] => none
      | first :: _ => some (closestLoop (prefTotalMinutes h24 m) first slots)

/-- OpenTable `findMatchingTimeSlot` loop
(`src/content/opentable-form-filler.ts` lines 554–626): iterate the
slot buttons; return the first exact label match immediately; otherwise
keep the slot with strictly smaller difference from
`targetMinutes = hours * 60 + minutes` of the 24-hour preference
(`bestMatch` starts out empty and is seeded by the first slot). -/
def otLoop (h24 m prefTotal : Nat) : Option Slot → List Slot → Option Slot
  | best, [] => best
  | best, s :: rest =>
      if matchesPreferred h24 m s then some s
      else
        match best with
        | none => otLoop h24 m prefTotal (some s) rest
        | some b =>
            if slotDist prefTotal s < slotDist prefTotal b then
              otLoop h24 m prefTotal (some s) rest
            else
              otLoop h24 m prefTotal best rest

/-- OpenTable `findMatchingTimeSlot` (`src/content/opentable-form-filler.ts`
lines 554–626). -/
def findMatchingTimeSlot (slots : List Slot) (h24 m : Nat) : Option Slot :=
  if slots.isEmpty then none
  else otLoop h24 m (h24 * 60 + m) none slots

/-- Modelled from the spec's tie-break words: the first slot attaining
the minimum of `d`. -/
def pickFirstMin (d : Slot → Nat) : List Slot → Option Slot
  | [] => none
  | x :: xs =>
      match pickFirstMin d xs with
      | none => some x
      | some y => if d x ≤ d y then some x else some y

/-- Modelled from the spec's time-matching policy: "parse all visible
slot labels into minutes-since-midnight; pick exact equality if
present; otherwise pick the slot with minimum absolute difference;
ties broken by first-encountered order". -/
def specTimeMatch (slots : List Slot) (h24 m : Nat) : Option Slot :=
  match slots.find? (fun s => decide (slotTotalMinutes s = h24 * 60 + m)) with
  | some s => some s
  | none => pickFirstMin (slotDist (h24 * 60 + m)) slots

/-- The slot labelled `5:00 PM`. -/
def slot500PM : Slot := { id := 0, hours := 5, minutes := 0, pm := true }

/-- The slot labelled `5:30 PM`. -/
def slot530PM : Slot := { id := 1, hours := 5, minutes := 30, pm := true }

/-- The slot labelled `6:00 PM`. -/
def slot600PM : Slot := { id := 2, hours := 6, minutes := 0, pm := true }

/-- The slot labels `["5:00 PM", "5:30 PM", "6:00 PM"]` in DOM order. -/
def demoSlots : List Slot := [slot500PM, slot530PM, slot600PM]

/-! ## Lemmas and claim theorems -/
/-! Basic facts about `pushUnique` folds. -/

lemma pushUnique_nodup {acc : List Int} (h : acc.Nodup) (d : Int) :
    (pushUnique acc d).Nodup := by
  unfold pushUnique
  split
  · exact h
  · simpa [List.nodup_append] using ⟨h, by assumption⟩

lemma foldl_pushUnique_nodup (l : List Int) :
    ∀ acc : List Int, acc.Nodup → (l.foldl pushUnique acc).Nodup := by
  induction l with
  | nil => intro acc h; exact h
  | cons x xs ih =>
    intro acc h
    exact ih _ (pushUnique_nodup h x)

lemma foldl_guarded_pushUnique_nodup (f : Int → Int) (l : List Int) :
    ∀ acc : List Int, acc.Nodup →
      (l.foldl (fun acc off => if off = 0 then acc else pushUnique acc (f off)) acc).Nodup := by
  induction l with
  | nil => intro acc h; exact h
  | cons x xs ih =>
    intro acc h
    by_cases hx : x = 0
    · simpa [hx] using ih acc h
    · simpa [hx] using ih _ (pushUnique_nodup h (f x))

lemma foldl_guarded_pushUnique_fresh (D : Int) (l : List Int) :
    ∀ acc : List Int,
      (∀ off ∈ l, off ≠ 0 → (D + off) ∉ acc) → l.Nodup →
      l.foldl (fun acc off => if off = 0 then acc else pushUnique acc (D + off)) acc
        = acc ++ ((l.filter (fun off => off ≠ 0)).map (fun off => D + off)) := by
  induction l with
  | nil => intro acc _ _; simp
  | cons x xs ih =>
    intro acc hfresh hnd
    rcases List.nodup_cons.mp hnd with ⟨hx_not_mem, hnd'⟩
    by_cases hx : x = 0
    · rw [List.foldl_cons, if_pos hx,
        ih acc (fun off hoff => hfresh off (List.mem_cons_of_mem _ hoff)) hnd']
      simp [hx]
    · have hnotin : (D + x) ∉ acc := hfresh x (List.mem_cons_self x xs) hx
      rw [List.foldl_cons, if_neg hx]
      rw [pushUnique, if_neg hnotin]
      rw [ih (acc ++ [D + x]) ?_ hnd']
      · simp [hx]
      · intro off hoff hoff0
        simp only [List.mem_append, List.mem_singleton]
        push_neg
        refine ⟨hfresh off (List.mem_cons_of_mem _ hoff) hoff0, ?_⟩
        intro hcontra
        exact hx_not_mem (by
          have : off = x := by omega
          simpa [this] using hoff)

lemma scanOffsets_nodup (R : Nat) : (scanOffsets R).Nodup := by
  refine List.Nodup.map ?_ (List.nodup_range _)
  intro a b hab
  simp only at hab
  omega

lemma mem_scanOffsets {R : Nat} {off : Int} :
    off ∈ scanOffsets R ↔ -(R : Int) ≤ off ∧ off ≤ (R : Int) := by
  constructor
  · intro h
    rcases List.mem_map.mp h with ⟨i, hi, rfl⟩
    have := List.mem_range.mp hi
    omega
  · rintro ⟨h1, h2⟩
    refine List.mem_map.mpr ⟨(off + R).toNat, List.mem_range.mpr ?_, ?_⟩ <;> omega

/-- The scan offsets with the `dayOffset === 0` skip: `-R..-1` then `1..R`. -/
lemma scanOffsets_filter_ne_zero (R : Nat) :
    (scanOffsets R).filter (fun off => off ≠ 0)
      = ((List.range R).map (fun i : Nat => (i : Int) - (R : Int))) ++
        ((List.range R).map (fun i : Nat => (i : Int) + 1)) := by
  have hsplit : scanOffsets R
      = ((List.range R).map (fun i : Nat => (i : Int) - (R : Int))) ++
        ((0 : Int) :: ((List.range R).map (fun i : Nat => (i : Int) + 1))) := by
    unfold scanOffsets
    have h21 : 2 * R + 1 = R + (R + 1) := by omega
    rw [h21, List.range_add, List.map_append, List.map_map]
    congr 1
    rw [List.range_succ_eq_map, List.map_cons, List.map_map]
    congr 1
    · simp
    · apply List.map_congr_left
      intro i _
      simp [Function.comp]
  rw [hsplit, List.filter_append, List.filter_cons]
  have hneg : ∀ x ∈ (List.range R).map (fun i : Nat => (i : Int) - (R : Int)),
      (fun off => decide (off ≠ 0)) x = true := by
    intro x hx
    rcases List.mem_map.mp hx with ⟨i, hi, rfl⟩
    have := List.mem_range.mp hi
    simp only [decide_eq_true_eq]
    omega
  have hpos : ∀ x ∈ (List.range R).map (fun i : Nat => (i : Int) + 1),
      (fun off => decide (off ≠ 0)) x = true := by
    intro x hx
    rcases List.mem_map.mp hx with ⟨i, hi, rfl⟩
    simp only [decide_eq_true_eq]
    omega
  rw [List.filter_eq_self.mpr hneg, List.filter_eq_self.mpr hpos]
  simp

/-- Under a fixed UTC offset the scan-date round trip is plain day
addition: the local calendar date and wall-clock time of UTC midnight
shift back by exactly the same offset they were shifted forward by. -/
lemma scanDay_const (tz : Timezone) (c : Int) (hc : ∀ t, tz.offsetAt t = c)
    (D k : Int) : scanDay tz D k = D + k := by
  simp only [scanDay, utcToLocal, localToUTC, hc]
  omega

/-- Closed form of `buildDesiredDatesList` in auto-scan (range) mode,
in a fixed-offset timezone. -/
lemma buildDesiredDatesList_range_eq (tz : Timezone) (c : Int)
    (hc : ∀ t, tz.offsetAt t = c) (p : TockPreferences) (R : Nat)
    (h1 : p.selectedDates = []) (h2 : p.useFirstAvailableAfter = true)
    (h3 : p.maxDaysToScan = some R) :
    buildDesiredDatesList tz p
      = p.date :: (((scanOffsets R).filter (fun off => off ≠ 0)).map
          (fun off => p.date + off)) := by
  unfold buildDesiredDatesList
  rw [h1, h2, h3]
  simp only [List.length_nil, gt_iff_lt, lt_self_iff_false, if_false, if_true,
    Option.getD_some, scanDay_const tz c hc]
  rw [foldl_guarded_pushUnique_fresh p.date (scanOffsets R) [p.date] ?_ (scanOffsets_nodup R)]
  · simp
  · intro off _ hoff
    simp only [List.mem_singleton]
    omega

/-- C4 (amended): in range-scan mode (no explicit dates, auto-scan
enabled) with radius `R` and primary date `D = p.date`, and in a
runtime timezone applying a fixed UTC offset (so that no DST transition
falls inside the scan window's round trips), `buildDesiredDatesList`
returns exactly `2R+1` distinct dates, `D` first, and every returned
date is within `R` days of `D`.  Without the fixed-offset hypothesis
the count claim is false: see the counterexample, where a spring-
forward collides two offsets and only `2R` dates are returned. -/
theorem c4_range_scan_candidates (tz : Timezone) (c : Int)
    (hc : ∀ t, tz.offsetAt t = c) (p : TockPreferences) (R : Nat)
    (h1 : p.selectedDates = []) (h2 : p.useFirstAvailableAfter = true)
    (h3 : p.maxDaysToScan = some R) :
    (buildDesiredDatesList tz p).length = 2 * R + 1 ∧
    (buildDesiredDatesList tz p).Nodup ∧
    (buildDesiredDatesList tz p).head? = some p.date ∧
    ∀ d ∈ buildDesiredDatesList tz p, (d - p.date).natAbs ≤ R := by
  rw [buildDesiredDatesList_range_eq tz c hc p R h1 h2 h3]
  refine ⟨?_, ?_, ?_, ?_⟩
  · rw [scanOffsets_filter_ne_zero]
    simp
    omega
  · refine List.nodup_cons.mpr ⟨?_, ?_⟩
    · intro hmem
      rcases List.mem_map.mp hmem with ⟨off, hoff, heq⟩
      have hne : off ≠ 0 := by simpa using List.of_mem_filter hoff
      omega
    · refine List.Nodup.map ?_ ((scanOffsets_nodup R).filter _)
      intro a b hab
      simp only at hab
      omega
  · rfl
  · intro d hd
    rcases List.mem_cons.mp hd with h | h
    · simp [h]
    · rcases List.mem_map.mp h with ⟨off, hoff, heq⟩
      have hmem : off ∈ scanOffsets R := List.mem_of_mem_filter hoff
      have := mem_scanOffsets.mp hmem
      omega

/-- Witness for C4 at the concrete range-scan preferences (radius 2)
in the fixed-offset timezone UTC. -/
theorem c4_range_scan_candidates_witness :
    (buildDesiredDatesList utcTz examplePrefs).length = 2 * 2 + 1 ∧
    (buildDesiredDatesList utcTz examplePrefs).Nodup ∧
    (buildDesiredDatesList utcTz examplePrefs).head? = some examplePrefs.date ∧
    ∀ d ∈ buildDesiredDatesList utcTz examplePrefs,
      (d - examplePrefs.date).natAbs ≤ 2 :=
  c4_range_scan_candidates utcTz 0 (fun _ => rfl) examplePrefs 2 rfl rfl rfl

/-- C4 counterexample: the original claim fails in a DST timezone.  In
Europe/Berlin with primary date 2026-03-27 (day 20539) and radius 3,
the scan window crosses the spring-forward of 2026-03-29 01:00 UTC:
offsets `+2` and `+3` both render `2026-03-29` (day 20541) — local
01:00 on March 29 is still CET and maps to UTC 00:00 of the 29th,
while local 01:00 on March 30 is CEST and maps back to UTC 23:00 of
the 29th — so the `includes` guard drops the duplicate, `2026-03-30`
(day 20542) is never produced, and only `2·3 = 6` distinct dates are
returned instead of the claimed `2·3+1 = 7`. -/
theorem c4_counterexample :
    berlinPrefs.selectedDates = [] ∧
    berlinPrefs.useFirstAvailableAfter = true ∧
    berlinPrefs.maxDaysToScan = some 3 ∧
    scanDay berlin2026 berlinPrefs.date 2 = 20541 ∧
    scanDay berlin2026 berlinPrefs.date 3 = 20541 ∧
    buildDesiredDatesList berlin2026 berlinPrefs
      = [20539, 20536, 20537, 20538, 20540, 20541] ∧
    (buildDesiredDatesList berlin2026 berlinPrefs).length ≠ 2 * 3 + 1 ∧
    (20542 : Int) ∉ buildDesiredDatesList berlin2026 berlinPrefs := by
  refine ⟨rfl, rfl, rfl, by decide, by decide, by decide, by decide, by decide⟩

/-- C5: with a non-empty explicit (calendar-selected) date set, the
candidate list is independent of the scan radius `maxDaysToScan`. -/
theorem c5_explicit_ignores_radius (tz : Timezone) (p : TockPreferences)
    (r : Option Nat) (hne : p.selectedDates ≠ []) :
    buildDesiredDatesList tz { p with maxDaysToScan := r }
      = buildDesiredDatesList tz p := by
  obtain ⟨a, b, c, d, fb, e, dsm, mds, sel, f, g, h, i, j, k⟩ := p
  have hlen : 0 < sel.length := List.length_pos.mpr (by simpa using hne)
  simp [buildDesiredDatesList, hlen]

/-- Witness for C5: radius 9 versus radius 2 at explicit dates. -/
theorem c5_explicit_ignores_radius_witness :
    buildDesiredDatesList utcTz { examplePrefsSel with maxDaysToScan := some 9 }
      = buildDesiredDatesList utcTz examplePrefsSel :=
  c5_explicit_ignores_radius utcTz examplePrefsSel (some 9) (by decide)

/-- C6: the candidate date list never contains a date twice, in every
runtime timezone (the `includes` guard dedups whatever date strings
the arithmetic produces). -/
theorem buildDesiredDatesList_nodup (tz : Timezone) (p : TockPreferences) :
    (buildDesiredDatesList tz p).Nodup := by
  unfold buildDesiredDatesList
  split
  · exact foldl_pushUnique_nodup _ _ (by simp)
  · split
    · exact foldl_guarded_pushUnique_nodup _ _ _ (by simp)
    · simp

/-- C1: the auto-refresh retry feature is not implemented.  With
`autoRefreshOnNoSlots = true` and `maxRefreshRetries = 3` and an
adapter that fails on every candidate date, the alarm handler performs
exactly ONE adapter invocation — not 3 — before the timer status
becomes `failed`. -/
theorem c1_single_adapter_invocation :
    examplePrefs.autoRefreshOnNoSlots = some true ∧
    examplePrefs.maxRefreshRetries = some 3 ∧
    (handleAlarmTrigger exTimer.alarmName utcTz examplePrefs (fun _ => false)
        exState).2 = 1 ∧
    (handleAlarmTrigger exTimer.alarmName utcTz examplePrefs (fun _ => false)
        exState).1.activeTimer
      = some { exTimer with status := TimerStatus.failed } ∧
    (1 : Nat) ≠ 3 := by
  refine ⟨rfl, rfl, by decide, by decide, by decide⟩

/-- C9: a fired alarm whose name matches no stored timer (either no
timer is stored, or the stored timer's `alarmName` differs) is a
no-op: the persisted state is unchanged and no attempt cycle runs. -/
theorem c9_stale_alarm_noop (alarmName : String) (tz : Timezone)
    (p : TockPreferences) (adapter : List Int → Bool) (s : SchedState)
    (h : ∀ t, s.activeTimer = some t → t.alarmName ≠ alarmName) :
    handleAlarmTrigger alarmName tz p adapter s = (s, 0) := by
  unfold handleAlarmTrigger
  cases hs : s.activeTimer with
  | none => rfl
  | some t => simp [h t hs]

/-- Witness for C9 at a stale alarm name. -/
theorem c9_stale_alarm_noop_witness :
    handleAlarmTrigger "tock-auto-search-0" utcTz examplePrefs (fun _ => false)
      exState = (exState, 0) :=
  c9_stale_alarm_noop _ _ _ _ _ (by
    intro t ht
    simp only [exState] at ht
    cases ht
    decide)

/-- C2 counterexample: calling `scheduleTimer` with a drop time 10
seconds in the past does fail with a descriptive error, but it does NOT
leave the previously scheduled timer untouched: the stored record is
cleared and its alarm un-armed before the validation runs. -/
theorem c2_counterexample :
    (scheduleTimer pastPrefs 1 1764622800000 exState).1
        = Except.error "Scheduled time is in the past" ∧
    exState.activeTimer = some exTimer ∧
    exTimer.status = TimerStatus.scheduled ∧
    (scheduleTimer pastPrefs 1 1764622800000 exState).2.activeTimer
        ≠ exState.activeTimer ∧
    (scheduleTimer pastPrefs 1 1764622800000 exState).2.alarms ≠ exState.alarms := by
  refine ⟨rfl, rfl, rfl, by decide, by decide⟩

/-- C2 amended: `scheduleTimer` with a drop time whose fire time is not
in the future fails with the error `Scheduled time is in the past`, but
only after force-cancelling any previously scheduled timer: afterwards
no timer is stored and the previous timer's alarm is no longer armed
(`scheduleTimer` clears the existing timer before validating). -/
theorem c2_past_schedule_cancels_previous (p : TockPreferences) (tabId : Nat)
    (now : Int) (s : SchedState) (d : Int)
    (hd : p.dropTime = some d)
    (hpast : d - effectiveLeadTimeMs p ≤ now) :
    (scheduleTimer p tabId now s).1 = Except.error "Scheduled time is in the past" ∧
    (scheduleTimer p tabId now s).2.activeTimer = none ∧
    ∀ t, s.activeTimer = some t →
      t.alarmName ∉ (scheduleTimer p tabId now s).2.alarms := by
  have hsplit : scheduleTimer p tabId now s
      = (Except.error "Scheduled time is in the past", cancelTimer s) := by
    simp [scheduleTimer, hd, hpast]
  rw [hsplit]
  refine ⟨rfl, ?_, ?_⟩
  · unfold cancelTimer
    cases h : s.activeTimer with
    | none => rw [h]
    | some t => rfl
  · intro t ht
    unfold cancelTimer
    rw [ht]
    simp

/-- Witness for the amended C2. -/
theorem c2_past_schedule_cancels_previous_witness :
    (scheduleTimer pastPrefs 1 1764622800000 exState).1
        = Except.error "Scheduled time is in the past" ∧
    (scheduleTimer pastPrefs 1 1764622800000 exState).2.activeTimer = none ∧
    ∀ t, exState.activeTimer = some t →
      t.alarmName ∉ (scheduleTimer pastPrefs 1 1764622800000 exState).2.alarms :=
  c2_past_schedule_cancels_previous pastPrefs 1 1764622800000 exState
    1764622790000 rfl (by decide)

/-- C3: with `leadTimeMs = 0` the fire time is NOT `dropTime - 0`:
the JS `preferences.leadTimeMs || 200` coerces the offset `0` to `200`,
so the created timer's `scheduledTime` is `dropTime - 200`, although
the stored default `leadTimeMs: 0` is documented as "refresh exactly at
drop time". -/
theorem c3_zero_offset_coerced_to_200 :
    examplePrefs.leadTimeMs = some 0 ∧
    examplePrefs.dropTime = some 1764622800000 ∧
    ((scheduleTimer examplePrefs 1 1764622700000 emptyState).1.toOption.map
        ActiveTimer.scheduledTime) = some (1764622800000 - 200) ∧
    (1764622800000 - 200 : Int) ≠ 1764622800000 - 0 := by
  refine ⟨rfl, rfl, ?_, by decide⟩
  rfl

/-- C10: `detectPlatform` only ever returns `tock`, `opentable` or
`none` — never `resy` — so the content script's Resy branch is
unreachable through platform detection, for every URL (including
resy.com pages). -/
theorem c10_resy_branch_unreachable (url : String) :
    (detectPlatform url = some Platform.tock ∨
      detectPlatform url = some Platform.opentable ∨
      detectPlatform url = none) ∧
    detectPlatform url ≠ some Platform.resy ∧
    chooseMultiDateFiller (detectPlatform url) ≠ MultiDateFiller.resyFiller := by
  have h : detectPlatform url = some Platform.tock ∨
      detectPlatform url = some Platform.opentable ∨
      detectPlatform url = none := by
    simp only [detectPlatform]
    split
    · exact Or.inl rfl
    · split
      · exact Or.inr (Or.inl rfl)
      · exact Or.inr (Or.inr rfl)
  refine ⟨h, ?_, ?_⟩ <;> rcases h with h | h | h <;> rw [h] <;> decide

lemma tryDatesLoop_eq (click book : Int → Bool) (l : List Int) :
    tryDatesLoop click book l
      = (l.any (fun d => click d && book d),
          takeThrough (fun d => click d && book d) l) := by
  induction l with
  | nil => rfl
  | cons d rest ih =>
    by_cases hc : click d
    · by_cases hb : book d
      · simp [tryDatesLoop, takeThrough, hc, hb]
      · simp [tryDatesLoop, takeThrough, hc, hb, ih]
    · simp [tryDatesLoop, takeThrough, hc, ih]

lemma mem_takeThrough {pred : Int → Bool} {l : List Int} {x : Int}
    (h : x ∈ takeThrough pred l) : x ∈ l := by
  induction l with
  | nil => simp [takeThrough] at h
  | cons d rest ih =>
    by_cases hd : pred d
    · simp [takeThrough, hd] at h
      simp [h]
    · simp [takeThrough, hd] at h
      rcases h with h | h
      · simp [h]
      · exact List.mem_cons_of_mem _ (ih h)

lemma takeThrough_of_any_false {pred : Int → Bool} {l : List Int}
    (h : l.any pred = false) : takeThrough pred l = l := by
  induction l with
  | nil => rfl
  | cons d rest ih =>
    simp only [List.any_cons, Bool.or_eq_false_iff] at h
    simp [takeThrough, h.1, ih h.2]

/-- C8: dates absent from the availability map are never attempted;
the available desired dates are attempted in input order up to (and
including) the first date whose calendar click and book-button search
both succeed, at which point the loop returns `true` immediately; the
loop returns `false` only after attempting every available desired
date, so one date's failure never aborts the remaining candidates. -/
theorem c8_try_multiple_dates (avail : List Int) (click book : Int → Bool)
    (desired : List Int) :
    (tryMultipleDates avail click book desired).1
        = (desired.filter (fun d => d ∈ avail)).any (fun d => click d && book d) ∧
    (tryMultipleDates avail click book desired).2
        = takeThrough (fun d => click d && book d)
            (desired.filter (fun d => d ∈ avail)) ∧
    (∀ d ∈ (tryMultipleDates avail click book desired).2,
        d ∈ desired ∧ d ∈ avail) ∧
    ((tryMultipleDates avail click book desired).1 = false →
      (tryMultipleDates avail click book desired).2
        = desired.filter (fun d => d ∈ avail)) := by
  unfold tryMultipleDates
  rw [tryDatesLoop_eq]
  refine ⟨rfl, rfl, ?_, ?_⟩
  · intro d hd
    have hmem := mem_takeThrough hd
    have := List.mem_filter.mp hmem
    refine ⟨this.1, by simpa using this.2⟩
  · intro hfalse
    exact takeThrough_of_any_false hfalse

/-- Witness for C8: dates 20000 and 20003 are absent from the
availability map and are skipped; the two available dates are both
attempted (the click failure on 20001 does not abort 20002) and the
loop returns `false`. -/
theorem c8_try_multiple_dates_witness :
    (tryMultipleDates exAvail exClick exBook [20000, 20001, 20002, 20003]).1 = false ∧
    (tryMultipleDates exAvail exClick exBook [20000, 20001, 20002, 20003]).2
      = [20000, 20001, 20002, 20003].filter (fun d => d ∈ exAvail) := by
  have h := c8_try_multiple_dates exAvail exClick exBook [20000, 20001, 20002, 20003]
  have hfalse : (tryMultipleDates exAvail exClick exBook [20000, 20001, 20002, 20003]).1 = false := by
    decide
  exact ⟨hfalse, h.2.2.2 hfalse⟩

/-- The 12-hour roundtrip of the preferred time loses nothing below 24
hours. -/
lemma prefTotalMinutes_eq (h24 m : Nat) (h1 : h24 < 24) :
    prefTotalMinutes h24 m = h24 * 60 + m := by
  by_cases hp : 12 ≤ h24 <;> by_cases hz : h24 % 12 = 0 <;>
    simp [prefTotalMinutes, slotTotalMinutes, pref12Hours, prefIsPM, hp, hz] <;>
    (try split_ifs) <;> omega

/-- Under display-12-hour well-formedness, exact label equality with
the rendered preference is the same test as equality of
minutes-since-midnight. -/
lemma matchesPreferred_eq (h24 m : Nat) (s : Slot) (hwf : slotWF s)
    (h1 : h24 < 24) (h2 : m < 60) :
    matchesPreferred h24 m s
      = decide (slotTotalMinutes s = h24 * 60 + m) := by
  rcases s with ⟨i, sh, sm, spm⟩
  have hwf' : 1 ≤ sh ∧ sh ≤ 12 ∧ sm < 60 := hwf
  obtain ⟨hw1, hw2, hw3⟩ := hwf'
  show decide (sh = pref12Hours h24 ∧ sm = m ∧ spm = prefIsPM h24)
      = decide (slotTotalMinutes ⟨i, sh, sm, spm⟩ = h24 * 60 + m)
  rw [decide_eq_decide]
  cases spm <;> by_cases hp : 12 ≤ h24 <;> by_cases hz : h24 % 12 = 0 <;>
    simp [slotTotalMinutes, pref12Hours, prefIsPM, hp, hz] <;>
    (try split_ifs) <;> omega

lemma find?_congr {α : Type} {p q : α → Bool} :
    ∀ l : List α, (∀ x ∈ l, p x = q x) → l.find? p = l.find? q := by
  intro l
  induction l with
  | nil => intro _; rfl
  | cons x xs ih =>
    intro h
    have hx := h x (List.mem_cons_self x xs)
    simp only [List.find?]
    rw [hx, ih (fun y hy => h y (List.mem_cons_of_mem _ hy))]

lemma closestLoop_le_self (pt : Nat) :
    ∀ (l : List Slot) (best : Slot),
      slotDist pt (closestLoop pt best l) ≤ slotDist pt best := by
  intro l
  induction l with
  | nil => intro best; exact le_refl _
  | cons s rest ih =>
    intro best
    by_cases h : slotDist pt s < slotDist pt best
    · simp only [closestLoop, if_pos h]
      exact le_trans (ih s) (le_of_lt h)
    · simp only [closestLoop, if_neg h]
      exact ih best

lemma closestLoop_le_mem (pt : Nat) :
    ∀ (l : List Slot) (best : Slot), ∀ x ∈ l,
      slotDist pt (closestLoop pt best l) ≤ slotDist pt x := by
  intro l
  induction l with
  | nil => intro best x hx; simp at hx
  | cons s rest ih =>
    intro best x hx
    rcases List.mem_cons.mp hx with rfl | hx
    · by_cases h : slotDist pt x < slotDist pt best
      · simp only [closestLoop, if_pos h]
        exact closestLoop_le_self pt rest x
      · simp only [closestLoop, if_neg h]
        exact le_trans (closestLoop_le_self pt rest best) (by omega)
    · by_cases h : slotDist pt s < slotDist pt best
      · simp only [closestLoop, if_pos h]
        exact ih s x hx
      · simp only [closestLoop, if_neg h]
        exact ih best x hx

lemma closestLoop_eq_self (pt : Nat) :
    ∀ (l : List Slot) (best : Slot),
      (∀ x ∈ l, ¬ slotDist pt x < slotDist pt best) →
      closestLoop pt best l = best := by
  intro l
  induction l with
  | nil => intro best _; rfl
  | cons s rest ih =>
    intro best h
    have hs := h s (List.mem_cons_self s rest)
    simp only [closestLoop, if_neg hs]
    exact ih best (fun x hx => h x (List.mem_cons_of_mem _ hx))

/-- How the loop result depends on the seed: a seed at least as good
either leads to the same result, or survives the whole loop while the
other seed's result is no better. -/
lemma closestLoop_seed_cases (pt : Nat) :
    ∀ (l : List Slot) (b c : Slot),
      slotDist pt b ≤ slotDist pt c →
      closestLoop pt b l = closestLoop pt c l ∨
      (closestLoop pt b l = b ∧
        slotDist pt b ≤ slotDist pt (closestLoop pt c l)) := by
  intro l
  induction l with
  | nil => intro b c h; exact Or.inr ⟨rfl, h⟩
  | cons s rest ih =>
    intro b c h
    by_cases hsb : slotDist pt s < slotDist pt b
    · have hsc : slotDist pt s < slotDist pt c := by omega
      simp only [closestLoop, if_pos hsb, if_pos hsc]
      exact Or.inl trivial
    · by_cases hsc : slotDist pt s < slotDist pt c
      · simp only [closestLoop, if_neg hsb, if_pos hsc]
        exact ih b s (by omega)
      · simp only [closestLoop, if_neg hsb, if_neg hsc]
        exact ih b c h

/-- The code's strict-improvement loop computes exactly the spec's
first minimum. -/
lemma pickFirstMin_cons_eq_closestLoop (pt : Nat) :
    ∀ (l : List Slot) (best : Slot),
      pickFirstMin (slotDist pt) (best :: l) = some (closestLoop pt best l) := by
  intro l
  induction l with
  | nil => intro best; rfl
  | cons s rest ih =>
    intro best
    show (match pickFirstMin (slotDist pt) (s :: rest) with
      | none => some best
      | some y =>
          if slotDist pt best ≤ slotDist pt y then some best else some y)
      = some (closestLoop pt best (s :: rest))
    rw [ih s]
    by_cases h1 : slotDist pt s < slotDist pt best
    · have hle : slotDist pt (closestLoop pt s rest) ≤ slotDist pt s :=
        closestLoop_le_self pt rest s
      simp only [closestLoop, if_pos h1]
      rw [if_neg (by omega)]
    · by_cases h2 : slotDist pt best ≤ slotDist pt (closestLoop pt s rest)
      · have hrest : ∀ x ∈ rest, ¬ slotDist pt x < slotDist pt best := by
          intro x hx
          have := closestLoop_le_mem pt rest s x hx
          omega
        simp only [closestLoop, if_neg h1]
        rw [if_pos h2, closestLoop_eq_self pt rest best hrest]
      · rcases closestLoop_seed_cases pt rest best s (by omega) with heq | ⟨_, hle⟩
        · simp only [closestLoop, if_neg h1]
          rw [if_neg h2, heq]
        · omega

lemma closestLoop_self_cons (pt : Nat) (first : Slot) (rest : List Slot) :
    closestLoop pt first (first :: rest) = closestLoop pt first rest := by
  simp [closestLoop]

/-- The Tock `findBookButton` implements the spec's shared
time-matching policy. -/
lemma findBookButton_eq_spec (slots : List Slot) (h24 m : Nat)
    (hwf : ∀ s ∈ slots, slotWF s) (h1 : h24 < 24) (h2 : m < 60) :
    findBookButton slots h24 m = specTimeMatch slots h24 m := by
  unfold findBookButton specTimeMatch
  rw [find?_congr slots (fun s hs => matchesPreferred_eq h24 m s (hwf s hs) h1 h2)]
  cases hfind : slots.find? (fun s => decide (slotTotalMinutes s = h24 * 60 + m)) with
  | some s => rfl
  | none =>
    cases slots with
    | nil => rfl
    | cons first rest =>
      show some (closestLoop (prefTotalMinutes h24 m) first (first :: rest))
          = pickFirstMin (slotDist (h24 * 60 + m)) (first :: rest)
      rw [prefTotalMinutes_eq h24 m h1, closestLoop_self_cons]
      exact (pickFirstMin_cons_eq_closestLoop _ rest first).symm

lemma otLoop_of_exact (h24 m pt : Nat) :
    ∀ (l : List Slot) (best : Option Slot) (e : Slot),
      l.find? (matchesPreferred h24 m) = some e →
      otLoop h24 m pt best l = some e := by
  intro l
  induction l with
  | nil => intro best e h; simp [List.find?] at h
  | cons s rest ih =>
    intro best e h
    cases hs : matchesPreferred h24 m s with
    | true =>
        rw [List.find?_cons_of_pos _ hs] at h
        cases h
        simp [otLoop, hs]
    | false =>
        rw [List.find?_cons_of_neg _ (by simp [hs])] at h
        cases best with
        | none => simpa [otLoop, hs] using ih (some s) e h
        | some b =>
            by_cases hd : slotDist pt s < slotDist pt b
            · simpa [otLoop, hs, hd] using ih (some s) e h
            · simpa [otLoop, hs, hd] using ih (some b) e h

lemma otLoop_closest (h24 m pt : Nat) :
    ∀ (l : List Slot) (b : Slot),
      l.find? (matchesPreferred h24 m) = none →
      otLoop h24 m pt (some b) l = some (closestLoop pt b l) := by
  intro l
  induction l with
  | nil => intro b _; rfl
  | cons s rest ih =>
    intro b h
    have hs : matchesPreferred h24 m s = false := by
      cases hx : matchesPreferred h24 m s
      · rfl
      · rw [List.find?_cons_of_pos _ hx] at h
        cases h
    rw [List.find?_cons_of_neg _ (by simp [hs])] at h
    by_cases hd : slotDist pt s < slotDist pt b
    · simpa [otLoop, closestLoop, hs, hd] using ih s h
    · simpa [otLoop, closestLoop, hs, hd] using ih b h

/-- The OpenTable `findMatchingTimeSlot` implements the spec's shared
time-matching policy. -/
lemma findMatchingTimeSlot_eq_spec (slots : List Slot) (h24 m : Nat)
    (hwf : ∀ s ∈ slots, slotWF s) (h1 : h24 < 24) (h2 : m < 60) :
    findMatchingTimeSlot slots h24 m = specTimeMatch slots h24 m := by
  unfold findMatchingTimeSlot specTimeMatch
  cases slots with
  | nil => rfl
  | cons first rest =>
    rw [if_neg (by simp)]
    rw [← find?_congr (first :: rest)
      (fun s hs => matchesPreferred_eq h24 m s (hwf s hs) h1 h2)]
    cases hfind : (first :: rest).find? (matchesPreferred h24 m) with
    | some e => rw [otLoop_of_exact h24 m _ _ none e hfind]
    | none =>
        have hs : matchesPreferred h24 m first = false := by
          cases hx : matchesPreferred h24 m first
          · rfl
          · rw [List.find?_cons_of_pos _ hx] at hfind
            cases hfind
        have h' : rest.find? (matchesPreferred h24 m) = none := by
          rwa [List.find?_cons_of_neg _ (by simp [hs])] at hfind
        have hstep : otLoop h24 m (h24 * 60 + m) none (first :: rest)
            = otLoop h24 m (h24 * 60 + m) (some first) rest := by
          simp [otLoop, hs]
        rw [hstep, otLoop_closest h24 m _ rest first h']
        exact (pickFirstMin_cons_eq_closestLoop _ rest first).symm

/-- C7: both fillers select the slot whose parsed time equals the
preferred time exactly when one is present, and otherwise the slot with
minimum absolute minutes-since-midnight difference, ties broken by
first-encountered order (the spec-side `specTimeMatch`); in particular
for slots `5:00 PM / 5:30 PM / 6:00 PM` and preferred time `17:45`,
both select the first-encountered 15-minute candidate `5:30 PM`. -/
theorem c7_time_match_policy :
    (∀ (slots : List Slot) (h24 m : Nat),
        (∀ s ∈ slots, slotWF s) → h24 < 24 → m < 60 →
        findBookButton slots h24 m = specTimeMatch slots h24 m ∧
        findMatchingTimeSlot slots h24 m = specTimeMatch slots h24 m) ∧
    findBookButton demoSlots 17 45 = some slot530PM ∧
    findMatchingTimeSlot demoSlots 17 45 = some slot530PM := by
  refine ⟨fun slots h24 m hwf h1 h2 =>
    ⟨findBookButton_eq_spec slots h24 m hwf h1 h2,
      findMatchingTimeSlot_eq_spec slots h24 m hwf h1 h2⟩, by decide, by decide⟩

/-- Witness for C7 at the demo slots and preferred time 17:45. -/
theorem c7_time_match_policy_witness :
    findBookButton demoSlots 17 45 = specTimeMatch demoSlots 17 45 ∧
    findMatchingTimeSlot demoSlots 17 45 = specTimeMatch demoSlots 17 45 :=
  c7_time_match_policy.1 demoSlots 17 45 (by decide) (by decide) (by decide)

end TockBot
